import Mathlib

/-!
Verification of the request-processing middleware pipeline implemented in
src/design-pattern/strategy.ts (the Chain-of-Responsibility section:
LoggingMiddleware, RateLimitingMiddleware, AuthenticationMiddleware,
ValidationMiddleware, AuthorizationMiddleware, MiddlewarePipeline, HTTPServer).

The embedding is shallow: each TypeScript class method becomes a Lean
function; the JavaScript Map objects become association lists or functions
from keys; Date.now() becomes an explicit `now : Nat` argument threaded into
the rate limiter; promises disappear because every handler in the source is
sequential and deterministic. JavaScript strings are modelled by Lean
strings (all concrete data in the source is ASCII, where the two notions of
length and substring coincide).
-/

namespace Pipeline

/-- JavaScript runtime values that can appear in a request body field.
`undef` models `undefined` (in particular the result of indexing an absent
property), `jnull` models `null`. -/
inductive JValue where
  | undef
  | jnull
  | jstr (s : String)
  | jnum (n : Int)
  | jbool (b : Bool)
deriving DecidableEq

/-- Identity attached by AuthenticationMiddleware.verifyToken (strategy.ts
lines 367-377): an object with id, email and role. -/
structure User where
  id : String
  email : String
  role : String
deriving DecidableEq

/-- Response bodies produced in the source: plain error objects
`\x7b error \x7d`, validation errors `\x7b error, details \x7d`, and the
payload objects returned by route handlers (modelled as a field list). -/
inductive Body where
  | err (message : String)
  | errDetails (message : String) (details : List String)
  | obj (fields : List (String × String))
deriving DecidableEq

/-- Response interface (strategy.ts lines 303-307): status, body and an
optional header mapping (absent headers modelled as the empty list). -/
structure Response where
  status : Nat
  body : Body
  headers : List (String × String)
deriving DecidableEq

/-- Request interface (strategy.ts lines 293-301). The body is an
association list of fields (`request.body?.[field]` on an absent field
yields `undefined`, see `bodyGet`); `user` is the mutable context slot
populated by AuthenticationMiddleware. The unused `metadata` field is
omitted. -/
structure Request where
  id : String
  method : String
  path : String
  headers : List (String × String)
  body : List (String × JValue)
  user : Option User
deriving DecidableEq

/-- Header access `request.headers['authorization']`: exact-key lookup,
`undefined` when absent. -/
def lookupHeader (req : Request) (k : String) : Option String :=
  req.headers.lookup k

/-- Body field access `request.body?.[field]`: `undefined` when the field
(or the whole body) is absent. -/
def bodyGet (req : Request) (field : String) : JValue :=
  match req.body.lookup field with
  | some v => v
  | none => JValue.undef

/-- The `METHOD:path` key used by every registry in the source
(schemas, permissions, routes). -/
def routeKey (req : Request) : String :=
  req.method ++ ":" ++ req.path

/-- RateLimitingMiddleware per-client state: the `requests` Map from client
id to the ordered list of recorded timestamps, modelled extensionally as a
function (Map.get with a `|| []` default, Map.set as pointwise update). -/
def RLState : Type := String → List Nat

/-- Fresh RateLimitingMiddleware state: every client maps to no recorded
timestamps. -/
def emptyRL : RLState := fun _ => []

/-- What a middleware does with its continuation: either return a Response
without calling `next` (short-circuit), or call `next()` exactly once and
return its result unchanged.  Every middleware in the source falls in one
of these two cases on every input. -/
inductive Outcome where
  | shortCircuit (resp : Response)
  | delegate
deriving DecidableEq

/-- Result of running one middleware up to its continuation decision: the
updated shared state, the (possibly enriched) request, and the outcome. -/
structure MwResult (σ : Type) where
  st : σ
  req : Request
  out : Outcome

/-- A middleware, as a function of the request and the shared state. -/
def Mw (σ : Type) : Type := Request → σ → MwResult σ

/-- Result of one pipeline execution: the final response, the final shared
state, the indices of the middlewares that were invoked (in invocation
order, 0-based registration positions), and whether the terminal route
handler ran. -/
structure ExecResult (σ : Type) where
  resp : Response
  st : σ
  invoked : List Nat
  handlerRun : Bool

/-- MiddlewarePipeline.execute (strategy.ts lines 575-589): run the
middlewares in registration order; a delegating middleware passes control
to the next one (or to the terminal handler after the last), a
short-circuiting middleware ends the execution with its response. The
`invoked` trace records which middleware positions actually executed. -/
def exec {σ : Type} : List (Mw σ) → Request → σ → Response → ExecResult σ
  | [], _, st, handler => ⟨handler, st, [], true⟩
  | m :: rest, req, st, handler =>
    let r := m req st
    match r.out with
    | Outcome.shortCircuit resp => ⟨resp, r.st, [0], false⟩
    | Outcome.delegate =>
      let e := exec rest r.req r.st handler
      ⟨e.resp, e.st, 0 :: e.invoked.map (· + 1), e.handlerRun⟩

/-- Position of the first middleware that short-circuits when the pipeline
runs on `req` from state `st` (`none` when every middleware delegates). -/
def firstSC {σ : Type} : List (Mw σ) → Request → σ → Option Nat
  | [], _, _ => none
  | m :: rest, req, st =>
    let r := m req st
    match r.out with
    | Outcome.shortCircuit _ => some 0
    | Outcome.delegate => (firstSC rest r.req r.st).map (· + 1)

/-- LoggingMiddleware.execute (strategy.ts lines 315-333): observes the
request, delegates, and returns the continuation result unchanged (the
console output and timing are pure effects with no influence on the
response or the shared state). -/
def loggingMw {σ : Type} : Mw σ := fun req st => ⟨st, req, Outcome.delegate⟩

/-- RateLimitingMiddleware.windowMs (strategy.ts line 381): 60 * 1000 ms. -/
def windowMs : Nat := 60 * 1000

/-- RateLimitingMiddleware.maxRequests (strategy.ts line 382). -/
def maxRequests : Nat := 10

/-- RateLimitingMiddleware.getClientId (strategy.ts lines 404-407):
`request.user?.id || request.headers['x-forwarded-for'] || 'unknown'`.
JavaScript `||` skips falsy values, so an empty-string id or header falls
through to the next alternative. This definition is the header/fallback
tail of the chain. -/
def getClientIdHeader (req : Request) : String :=
  match lookupHeader req "x-forwarded-for" with
  | some v => if v = "" then "unknown" else v
  | none => "unknown"

/-- Head of the getClientId alternative chain: the attached user id when it
is present and truthy, the header/unknown fallback otherwise. -/
def getClientId (req : Request) : String :=
  match req.user with
  | some u => if u.id = "" then getClientIdHeader req else u.id
  | none => getClientIdHeader req

/-- The pruning filter of RateLimitingMiddleware.isRateLimited (line 414):
keep timestamps with `now - time < windowMs`. On Nat, `now - t` truncates
to 0 when `t > now`, and JavaScript would compute a negative number: both
compare `< windowMs` identically (true). -/
def prune (now : Nat) (ts : List Nat) : List Nat :=
  ts.filter (fun t => now - t < windowMs)

/-- RateLimitingMiddleware.execute (strategy.ts lines 384-424):
isRateLimited prunes the client window and stores the pruned list; when the
pruned list has reached maxRequests the request is rejected with 429 and a
Retry-After header and nothing is recorded; otherwise recordRequest appends
`now` and the middleware delegates. `Date.now()` is modelled by the single
`now` argument (the source calls it twice within one execute, microseconds
apart). -/
def rateLimitMw (now : Nat) : Mw RLState := fun req st =>
  let cid := getClientId req
  let valid := prune now (st cid)
  if maxRequests ≤ valid.length then
    ⟨fun k => if k = cid then valid else st k, req,
      Outcome.shortCircuit ⟨429, Body.err "Rate limit exceeded", [("Retry-After", "60")]⟩⟩
  else
    ⟨fun k => if k = cid then valid ++ [now] else st k, req, Outcome.delegate⟩

/-- AuthenticationMiddleware.verifyToken (strategy.ts lines 367-377): the
two recognised mock tokens; anything else is a verification failure. -/
def verifyToken (tok : String) : Option User :=
  if tok = "valid-token" then some ⟨"user123", "user@example.com", "user"⟩
  else if tok = "admin-token" then some ⟨"admin123", "admin@example.com", "admin"⟩
  else none

/-- The `startsWith` check on a header value, computed over the character
list (ASCII data, where characters and UTF-16 units coincide). -/
def strStartsWith (s p : String) : Bool :=
  p.toList.isPrefixOf s.toList

/-- JavaScript `substring(n)` over the character list (ASCII data). -/
def strDrop (s : String) (n : Nat) : String :=
  ⟨s.toList.drop n⟩

/-- AuthenticationMiddleware.execute (strategy.ts lines 336-365): missing
or non-`Bearer ` authorization header gives an immediate 401; a token that
fails verification gives a 401 with the generic `Invalid token` message;
otherwise the verified user is attached to the request and the middleware
delegates. An empty header string is falsy in `!authHeader` and also fails
`startsWith`, so both roads lead to the same 401. -/
def authMw {σ : Type} : Mw σ := fun req st =>
  match lookupHeader req "authorization" with
  | none => ⟨st, req, Outcome.shortCircuit
      ⟨401, Body.err "Missing or invalid authorization header", []⟩⟩
  | some h =>
    if strStartsWith h "Bearer " then
      match verifyToken (strDrop h 7) with
      | some u => ⟨st, { req with user := some u }, Outcome.delegate⟩
      | none => ⟨st, req, Outcome.shortCircuit ⟨401, Body.err "Invalid token", []⟩⟩
    else
      ⟨st, req, Outcome.shortCircuit
        ⟨401, Body.err "Missing or invalid authorization header", []⟩⟩

/-- The three values `rules.type` takes in the schema registry. -/
inductive FieldType where
  | email
  | str
  | num
deriving DecidableEq

/-- One field rule set of a validation schema (strategy.ts lines 432-445):
`required`, optional `type`, optional `minLength`, optional `min`. -/
structure Rules where
  required : Bool
  rtype : Option FieldType
  minLength : Option Nat
  min : Option Int
deriving DecidableEq

/-- A validation schema: the `body` object, as the ordered field/rules
pairs that `Object.entries` iterates. -/
structure Schema where
  body : List (String × Rules)
deriving DecidableEq

/-- The ValidationMiddleware schema registry (strategy.ts lines 430-446). -/
def schemas : List (String × Schema) :=
  [("POST:/users", ⟨[
      ("email", ⟨true, some FieldType.email, none, none⟩),
      ("name", ⟨true, some FieldType.str, some 2, none⟩),
      ("age", ⟨false, some FieldType.num, none, some 18⟩)]⟩),
   ("PUT:/users/:id", ⟨[
      ("name", ⟨false, some FieldType.str, some 2, none⟩),
      ("age", ⟨false, some FieldType.num, none, some 18⟩)]⟩)]

/-- String coercion applied by `regex.test(value)` when the tested value is
not a string (JavaScript String()). Only the string case is ever exercised
by the concrete schemas with string inputs; the other cases follow the
JavaScript coercions for the model's value forms. -/
def jsToString : JValue → String
  | JValue.undef => "undefined"
  | JValue.jnull => "null"
  | JValue.jstr s => s
  | JValue.jnum n => toString n
  | JValue.jbool b => if b then "true" else "false"

/-- ValidationMiddleware.isValidEmail (strategy.ts lines 520-522): the test
of the pattern anchored-start, one or more characters that are neither
whitespace nor at-sign, an at-sign, one or more such characters, a literal
dot, one or more such characters, anchored-end. A string matches exactly
when it contains a single at-sign, no whitespace, a non-empty local part,
and a dot in the domain part that is neither its first nor its last
character. -/
def isValidEmail (s : String) : Bool :=
  let cs := s.toList
  let lp := cs.takeWhile (fun c => c != '@')
  match cs.dropWhile (fun c => c != '@') with
  | [] => false
  | _ :: dom =>
    !dom.contains '@' &&
    !lp.isEmpty && lp.all (fun c => !c.isWhitespace) &&
    dom.all (fun c => !c.isWhitespace) &&
    ((dom.drop 1).dropLast.contains '.')

/-- JavaScript `typeof value === 'string'` on the modelled values. -/
def isStr (v : JValue) : Bool :=
  match v with
  | JValue.jstr _ => true
  | _ => false

/-- JavaScript `typeof value === 'number'` on the modelled values. -/
def isNum (v : JValue) : Bool :=
  match v with
  | JValue.jnum _ => true
  | _ => false

/-- JavaScript `value.length < m` as used on line 508: defined for strings,
`undefined < m` (hence false) for every other modelled value. -/
def jsLenLt (v : JValue) (m : Nat) : Bool :=
  match v with
  | JValue.jstr s => decide (s.length < m)
  | _ => false

/-- Decimal digit accumulator for the ToNumber model: `none` when a
non-digit character appears. -/
def decDigitsAux : List Char → Nat → Option Nat
  | [], acc => some acc
  | c :: rest, acc =>
    if c.isDigit then decDigitsAux rest (acc * 10 + (c.toNat - 48)) else none

/-- JavaScript ToNumber on a string, modelled for the empty string (0) and
optionally-negated decimal integer literals; every other string is NaN
(`none`). No claim exercises a string value under a numeric rule; this
conservative model exists so `jsLtNum` is total. -/
def jsStrToInt (s : String) : Option Int :=
  match s.toList with
  | [] => some 0
  | ['-'] => none
  | '-' :: rest => (decDigitsAux rest 0).map (fun n => -(n : Int))
  | cs => (decDigitsAux cs 0).map (fun n => (n : Int))

/-- JavaScript `value < m` for a numeric rule bound as used on line 512:
number comparison; strings are coerced with ToNumber (NaN compares false);
booleans coerce to 0/1; null coerces to 0; undefined is NaN. -/
def jsLtNum (v : JValue) (m : Int) : Bool :=
  match v with
  | JValue.jnum n => decide (n < m)
  | JValue.jstr s =>
    match jsStrToInt s with
    | some n => decide (n < m)
    | none => false
  | JValue.jbool b => decide ((if b then (1 : Int) else 0) < m)
  | JValue.jnull => decide ((0 : Int) < m)
  | JValue.undef => false

/-- ValidationMiddleware.validateField (strategy.ts lines 487-518). A
required field that is undefined or null yields the single `is required`
error and returns at once; otherwise, for a present (non-undefined,
non-null) value, the type, minLength and min checks each contribute their
error independently. `rules.minLength &&` and `rules.min &&` are falsy for
an absent rule and for the value 0. -/
def validateField (field : String) (value : JValue) (rules : Rules) : List String :=
  if rules.required = true ∧ (value = JValue.undef ∨ value = JValue.jnull) then
    [field ++ " is required"]
  else if value ≠ JValue.undef ∧ value ≠ JValue.jnull then
    (if rules.rtype = some FieldType.email ∧ isValidEmail (jsToString value) = false then
       [field ++ " must be a valid email"] else []) ++
    (if rules.rtype = some FieldType.str ∧ isStr value = false then
       [field ++ " must be a string"] else []) ++
    (if rules.rtype = some FieldType.num ∧ isNum value = false then
       [field ++ " must be a number"] else []) ++
    (match rules.minLength with
     | some m => if m ≠ 0 ∧ jsLenLt value m = true then
         [field ++ " must be at least " ++ toString m ++ " characters"] else []
     | none => []) ++
    (match rules.min with
     | some m => if m ≠ 0 ∧ jsLtNum value m = true then
         [field ++ " must be at least " ++ toString m] else []
     | none => [])
  else []

/-- ValidationMiddleware.validateRequest (strategy.ts lines 473-485):
collect the field errors of every declared field, in declaration order. -/
def validateRequest (req : Request) (schema : Schema) : List String :=
  (schema.body.map (fun fr => validateField fr.1 (bodyGet req fr.1) fr.2)).flatten

/-- ValidationMiddleware.execute (strategy.ts lines 448-471): no schema for
the `METHOD:path` key means delegate; a schema with at least one field
error means a 400 carrying the whole error list; a schema with no errors
means delegate. -/
def validationMw {σ : Type} : Mw σ := fun req st =>
  match schemas.lookup (routeKey req) with
  | none => ⟨st, req, Outcome.delegate⟩
  | some schema =>
    let errs := validateRequest req schema
    if 0 < errs.length then
      ⟨st, req, Outcome.shortCircuit ⟨400, Body.errDetails "Validation failed" errs, []⟩⟩
    else ⟨st, req, Outcome.delegate⟩

/-- The AuthorizationMiddleware permission registry (strategy.ts lines
528-534). -/
def permissions : List (String × List String) :=
  [("DELETE:/users/:id", ["admin"]),
   ("GET:/admin/users", ["admin"]),
   ("POST:/users", ["user", "admin"]),
   ("GET:/users/:id", ["user", "admin"])]

/-- AuthorizationMiddleware.execute (strategy.ts lines 536-563): no
permission entry for the `METHOD:path` key means delegate; with an entry,
a request without an attached user gets 401, a user whose role is not in
the entry gets 403, and otherwise the middleware delegates. -/
def authorizationMw {σ : Type} : Mw σ := fun req st =>
  match permissions.lookup (routeKey req) with
  | none => ⟨st, req, Outcome.delegate⟩
  | some requiredRoles =>
    match req.user with
    | none => ⟨st, req, Outcome.shortCircuit ⟨401, Body.err "Authentication required", []⟩⟩
    | some u =>
      if requiredRoles.contains u.role then ⟨st, req, Outcome.delegate⟩
      else ⟨st, req, Outcome.shortCircuit ⟨403, Body.err "Insufficient permissions", []⟩⟩

/-- HTTPServer.setupRoutes (strategy.ts lines 611-626): the terminal route
handlers, which are constant Response producers. -/
def routes : List (String × Response) :=
  [("GET:/users/123", ⟨200, Body.obj [("id", "123"), ("name", "John Doe"),
      ("email", "john@example.com")], []⟩),
   ("POST:/users", ⟨201, Body.obj [("id", "new-user"),
      ("message", "User created successfully")], []⟩),
   ("DELETE:/users/123", ⟨200, Body.obj [("message", "User deleted successfully")], []⟩)]

/-- HTTPServer.setupMiddleware (strategy.ts lines 602-609): the fixed
registration order of the five middlewares. -/
def serverMws (now : Nat) : List (Mw RLState) :=
  [loggingMw, rateLimitMw now, authMw, validationMw, authorizationMw]

/-- HTTPServer.handleRequest (strategy.ts lines 628-645): an unregistered
`METHOD:path` key is answered with 404 before the pipeline runs (no
middleware and no terminal handler is invoked); otherwise the pipeline
executes with the registered terminal handler. -/
def handleRequest (now : Nat) (req : Request) (st : RLState) : ExecResult RLState :=
  match routes.lookup (routeKey req) with
  | none => ⟨⟨404, Body.err "Route not found", []⟩, st, [], false⟩
  | some r => exec (serverMws now) req st r

/-- Abstract middleware behaviours for the reentrancy analysis of
MiddlewarePipeline.execute: a middleware either returns a response without
touching `next`, returns `await next()` (every concrete middleware in the
source does one of these two on every input), or — the behaviour the
defensive invariant is about — awaits `next()` twice and returns the second
result. -/
inductive MWProg where
  | respond (r : Response)
  | passThrough
  | callTwice
deriving DecidableEq

/-- The `next` closure of MiddlewarePipeline.execute (strategy.ts lines
575-589), with the shared mutable `index` made explicit: `next` reads the
index; past the end it invokes the terminal handler; otherwise it takes the
middleware at the index, post-increments, and runs that middleware, whose
own `next` calls continue from whatever value the shared index then has.
The result carries the response, the final shared index, and how many
times the terminal handler was invoked. Fuel makes the recursion
structural; `none` only means the fuel ran out. -/
def runNext (mws : List MWProg) (handler : Response) :
    Nat → Nat → Option (Response × Nat × Nat)
  | 0, _ => none
  | fuel + 1, idx =>
    if h : idx < mws.length then
      match mws.get ⟨idx, h⟩ with
      | MWProg.respond r => some (r, idx + 1, 0)
      | MWProg.passThrough => runNext mws handler fuel (idx + 1)
      | MWProg.callTwice =>
        match runNext mws handler fuel (idx + 1) with
        | none => none
        | some (_, i2, c1) =>
          match runNext mws handler fuel i2 with
          | none => none
          | some (r2, i3, c2) => some (r2, i3, c1 + c2)
    else some (handler, idx, 1)

/-- One full MiddlewarePipeline.execute run: start `next` at index 0 with
enough fuel for every behaviour combination of the registered middlewares
(each `next` entry consumes one unit and either stops or recurses at a
strictly larger index with two calls at most per level). -/
def runPipeline (mws : List MWProg) (handler : Response) : Option (Response × Nat × Nat) :=
  runNext mws handler (2 ^ (mws.length + 1)) 0

/-- A generic 200 response used as a concrete terminal-handler result. -/
def wresp : Response := ⟨200, Body.obj [], []⟩

/-- The unauthorized-demo request of strategy.ts lines 665-671: DELETE
/users/123 with the user-role token and an empty body. -/
def wreqDelete : Request :=
  ⟨"req-002", "DELETE", "/users/123", [("authorization", "Bearer valid-token")], [], none⟩

/-- A POST:/users request whose body fails two validation rules (invalid
email, name below minLength). -/
def wreqPost : Request :=
  ⟨"w-post", "POST", "/users", [("authorization", "Bearer valid-token")],
    [("email", JValue.jstr "nope"), ("name", JValue.jstr "x")], none⟩

/-- A request on a route with no schema, no permission entry, no registered
terminal handler and no authorization header. -/
def wreqPlain : Request := ⟨"w-plain", "GET", "/health", [], [], none⟩

/-- A request whose authorization header does not use the Bearer scheme. -/
def wreqBasic : Request :=
  ⟨"w-basic", "GET", "/health", [("authorization", "Basic abc")], [], none⟩

/-- A request carrying a Bearer token that fails verification. -/
def wreqBadTok : Request :=
  ⟨"w-badtok", "GET", "/health", [("authorization", "Bearer bogus")], [], none⟩

/-- A rate-limiter state in which the fallback client has ten recorded
timestamps. -/
def stTen : RLState :=
  fun k => if k = "unknown" then [0, 1, 2, 3, 4, 5, 6, 7, 8, 9] else []

/-- A client issuing the same request repeatedly: fold the rate limiter's
state transition over the list of request times. -/
def issue (req : Request) : List Nat → RLState → RLState
  | [], st => st
  | t :: ts, st => issue req ts (rateLimitMw t req st).st

/-- Unfolding lemma: a middleware that delegates hands the request and
state it produced to the rest of the chain, and its position prefixes the
trace. -/
theorem exec_cons_delegate {σ : Type} (m : Mw σ) (rest : List (Mw σ))
    (req : Request) (st st2 : σ) (req2 : Request) (handler : Response)
    (hm : m req st = ⟨st2, req2, Outcome.delegate⟩) :
    exec (m :: rest) req st handler =
      ⟨(exec rest req2 st2 handler).resp, (exec rest req2 st2 handler).st,
        0 :: (exec rest req2 st2 handler).invoked.map (· + 1),
        (exec rest req2 st2 handler).handlerRun⟩ := by
  simp [exec, hm]

/-- Unfolding lemma: a middleware that short-circuits ends the run with its
response; only its own position is traced and the handler does not run. -/
theorem exec_cons_shortCircuit {σ : Type} (m : Mw σ) (rest : List (Mw σ))
    (req : Request) (st st2 : σ) (req2 : Request) (r handler : Response)
    (hm : m req st = ⟨st2, req2, Outcome.shortCircuit r⟩) :
    exec (m :: rest) req st handler = ⟨r, st2, [0], false⟩ := by
  simp [exec, hm]

/-- Unfolding lemma for firstSC on a delegating head middleware. -/
theorem firstSC_cons_delegate {σ : Type} (m : Mw σ) (rest : List (Mw σ))
    (req : Request) (st st2 : σ) (req2 : Request)
    (hm : m req st = ⟨st2, req2, Outcome.delegate⟩) :
    firstSC (m :: rest) req st = (firstSC rest req2 st2).map (· + 1) := by
  simp [firstSC, hm]

/-- Unfolding lemma for firstSC on a short-circuiting head middleware. -/
theorem firstSC_cons_shortCircuit {σ : Type} (m : Mw σ) (rest : List (Mw σ))
    (req : Request) (st st2 : σ) (req2 : Request) (r : Response)
    (hm : m req st = ⟨st2, req2, Outcome.shortCircuit r⟩) :
    firstSC (m :: rest) req st = some 0 := by
  simp [firstSC, hm]

/-- Prepending position 0 to the shifted positions `1, …, n` gives the
positions `0, …, n`. -/
theorem cons_zero_map_add_one (n : Nat) :
    0 :: (List.range n).map (· + 1) = List.range (n + 1) := by
  rw [List.range_succ_eq_map]

/-- C4: for a fixed pipeline configuration, every execution invokes the
registered middlewares in exactly their registration order — the invoked
positions are the range `0, 1, …` up to and including the first
short-circuiting middleware (the whole registration list when none
short-circuits), for every request and state — and the terminal handler
runs exactly when every registered middleware delegates. -/
theorem claim_C4_exec_order {σ : Type} (mws : List (Mw σ)) (req : Request)
    (st : σ) (handler : Response) :
    (firstSC mws req st = none →
      (exec mws req st handler).invoked = List.range mws.length ∧
      (exec mws req st handler).handlerRun = true) ∧
    (∀ j, firstSC mws req st = some j →
      (exec mws req st handler).invoked = List.range (j + 1) ∧
      (exec mws req st handler).handlerRun = false) := by
  induction mws generalizing req st with
  | nil =>
    refine ⟨fun _ => ⟨rfl, rfl⟩, fun j hj => ?_⟩
    simp [firstSC] at hj
  | cons m rest ih =>
    rcases hm : m req st with ⟨st2, req2, out⟩
    cases out with
    | shortCircuit r =>
      rw [firstSC_cons_shortCircuit m rest req st st2 req2 r hm] at *
      rw [exec_cons_shortCircuit m rest req st st2 req2 r handler hm]
      refine ⟨fun hn => by simp at hn, fun j hj => ?_⟩
      have hj0 : j = 0 := by simpa using hj.symm
      subst hj0
      exact ⟨by simp [List.range_succ], rfl⟩
    | delegate =>
      rw [firstSC_cons_delegate m rest req st st2 req2 hm]
      rw [exec_cons_delegate m rest req st st2 req2 handler hm]
      rcases hfs : firstSC rest req2 st2 with _ | j
      · refine ⟨fun _ => ?_, fun j hj => by simp [hfs] at hj⟩
        obtain ⟨h1, h2⟩ := (ih req2 st2).1 hfs
        refine ⟨?_, h2⟩
        show 0 :: (exec rest req2 st2 handler).invoked.map (· + 1) =
          List.range (m :: rest).length
        rw [h1, List.length_cons, cons_zero_map_add_one]
      · refine ⟨fun hn => by simp [hfs] at hn, fun j2 hj2 => ?_⟩
        have hj2e : j + 1 = j2 := by simpa using hj2
        obtain ⟨h1, h2⟩ := (ih req2 st2).2 j hfs
        refine ⟨?_, h2⟩
        show 0 :: (exec rest req2 st2 handler).invoked.map (· + 1) =
          List.range (j2 + 1)
        rw [h1, hj2e, cons_zero_map_add_one]

/-- C4 witness: the concrete server pipeline on the invalid POST request
short-circuits at position 3 (the validator); the first four middlewares
ran in registration order and the terminal handler did not run. -/
theorem claim_C4_exec_order_witness :
    (exec (serverMws 0) wreqPost emptyRL wresp).invoked = List.range 4 ∧
    (exec (serverMws 0) wreqPost emptyRL wresp).handlerRun = false :=
  (claim_C4_exec_order (serverMws 0) wreqPost emptyRL wresp).2 3 (by decide)

/-- C10: a required field whose value is undefined or null yields exactly
the single `is required` error — the early return means no type, minLength
or min rule of that field is evaluated, so no other error for that field
can reach the 400 details list. -/
theorem claim_C10_required_short_circuits (field : String) (value : JValue)
    (rules : Rules) (hreq : rules.required = true)
    (hv : value = JValue.undef ∨ value = JValue.jnull) :
    validateField field value rules = [field ++ " is required"] := by
  unfold validateField
  rw [if_pos ⟨hreq, hv⟩]

/-- C10 witness: the required email field of the POST:/users schema on an
undefined value. -/
theorem claim_C10_required_short_circuits_witness :
    validateField "email" JValue.undef ⟨true, some FieldType.email, none, none⟩ =
      ["email is required"] :=
  claim_C10_required_short_circuits "email" JValue.undef
    ⟨true, some FieldType.email, none, none⟩ rfl (Or.inl rfl)

/-- C8: a request whose `METHOD:path` key has no registered terminal
handler is answered 404 by the dispatch layer before the pipeline runs: no
middleware position is traced and the terminal handler does not run. -/
theorem claim_C8_unknown_route_404 (now : Nat) (req : Request) (st : RLState)
    (h : routes.lookup (routeKey req) = none) :
    (handleRequest now req st).resp = ⟨404, Body.err "Route not found", []⟩ ∧
    (handleRequest now req st).invoked = [] ∧
    (handleRequest now req st).handlerRun = false := by
  unfold handleRequest
  rw [h]
  exact ⟨rfl, rfl, rfl⟩

/-- C8 witness: GET /health has no registered route. -/
theorem claim_C8_unknown_route_404_witness :
    (handleRequest 0 wreqPlain emptyRL).resp = ⟨404, Body.err "Route not found", []⟩ ∧
    (handleRequest 0 wreqPlain emptyRL).invoked = [] ∧
    (handleRequest 0 wreqPlain emptyRL).handlerRun = false :=
  claim_C8_unknown_route_404 0 wreqPlain emptyRL (by decide)

/-- C6: a request whose `METHOD:path` key is absent from the schema
registry makes the Validator delegate and return the continuation result
unchanged, and a key absent from the permission registry makes the
Authorizer do the same — for every request (any body, headers or attached
identity) and any state. -/
theorem claim_C6_fail_open {σ : Type} (req : Request) (st : σ) (handler : Response) :
    (schemas.lookup (routeKey req) = none →
      (exec [validationMw] req st handler).resp = handler ∧
      (exec [validationMw] req st handler).handlerRun = true) ∧
    (permissions.lookup (routeKey req) = none →
      (exec [authorizationMw] req st handler).resp = handler ∧
      (exec [authorizationMw] req st handler).handlerRun = true) := by
  constructor
  · intro hs
    have hv : validationMw req st = (⟨st, req, Outcome.delegate⟩ : MwResult σ) := by
      unfold validationMw
      rw [hs]
    rw [exec_cons_delegate validationMw [] req st st req handler hv]
    exact ⟨rfl, rfl⟩
  · intro hp
    have ha : authorizationMw req st = (⟨st, req, Outcome.delegate⟩ : MwResult σ) := by
      unfold authorizationMw
      rw [hp]
    rw [exec_cons_delegate authorizationMw [] req st st req handler ha]
    exact ⟨rfl, rfl⟩

/-- C6 witness: GET /health (identity attached or not) is in neither
registry; both middlewares hand back the continuation result. -/
theorem claim_C6_fail_open_witness :
    ((exec [validationMw] wreqPlain emptyRL wresp).resp = wresp ∧
      (exec [validationMw] wreqPlain emptyRL wresp).handlerRun = true) ∧
    ((exec [authorizationMw] wreqPlain emptyRL wresp).resp = wresp ∧
      (exec [authorizationMw] wreqPlain emptyRL wresp).handlerRun = true) :=
  ⟨(claim_C6_fail_open wreqPlain emptyRL wresp).1 (by decide),
   (claim_C6_fail_open wreqPlain emptyRL wresp).2 (by decide)⟩

/-- C5: a request with no `authorization` header, or a header that does
not start with `Bearer `, is answered 401 by the Authenticator and the
continuation never runs; a Bearer token that fails verification is
answered 401 with the generic `Invalid token` body and the continuation
never runs. -/
theorem claim_C5_auth_rejections {σ : Type} (req : Request) (st : σ) (handler : Response) :
    (lookupHeader req "authorization" = none →
      (exec [authMw] req st handler).resp =
        ⟨401, Body.err "Missing or invalid authorization header", []⟩ ∧
      (exec [authMw] req st handler).handlerRun = false) ∧
    (∀ v, lookupHeader req "authorization" = some v →
      strStartsWith v "Bearer " = false →
      (exec [authMw] req st handler).resp =
        ⟨401, Body.err "Missing or invalid authorization header", []⟩ ∧
      (exec [authMw] req st handler).handlerRun = false) ∧
    (∀ v, lookupHeader req "authorization" = some v →
      strStartsWith v "Bearer " = true →
      verifyToken (strDrop v 7) = none →
      (exec [authMw] req st handler).resp = ⟨401, Body.err "Invalid token", []⟩ ∧
      (exec [authMw] req st handler).handlerRun = false) := by
  refine ⟨fun hn => ?_, fun v hv hb => ?_, fun v hv hb htok => ?_⟩
  · have hm : authMw req st = (⟨st, req, Outcome.shortCircuit
        ⟨401, Body.err "Missing or invalid authorization header", []⟩⟩ : MwResult σ) := by
      unfold authMw
      rw [hn]
    rw [exec_cons_shortCircuit authMw [] req st st req _ handler hm]
    exact ⟨rfl, rfl⟩
  · have hm : authMw req st = (⟨st, req, Outcome.shortCircuit
        ⟨401, Body.err "Missing or invalid authorization header", []⟩⟩ : MwResult σ) := by
      unfold authMw
      rw [hv]
      simp [hb]
    rw [exec_cons_shortCircuit authMw [] req st st req _ handler hm]
    exact ⟨rfl, rfl⟩
  · have hm : authMw req st = (⟨st, req, Outcome.shortCircuit
        ⟨401, Body.err "Invalid token", []⟩⟩ : MwResult σ) := by
      unfold authMw
      rw [hv]
      simp [hb, htok]
    rw [exec_cons_shortCircuit authMw [] req st st req _ handler hm]
    exact ⟨rfl, rfl⟩

/-- C5 witness: the three rejection shapes on concrete requests — no
header, a Basic-scheme header, and an unverifiable Bearer token. -/
theorem claim_C5_auth_rejections_witness :
    ((exec [(authMw : Mw RLState)] wreqPlain emptyRL wresp).resp =
      ⟨401, Body.err "Missing or invalid authorization header", []⟩ ∧
     (exec [(authMw : Mw RLState)] wreqPlain emptyRL wresp).handlerRun = false) ∧
    ((exec [(authMw : Mw RLState)] wreqBasic emptyRL wresp).resp =
      ⟨401, Body.err "Missing or invalid authorization header", []⟩ ∧
     (exec [(authMw : Mw RLState)] wreqBasic emptyRL wresp).handlerRun = false) ∧
    ((exec [(authMw : Mw RLState)] wreqBadTok emptyRL wresp).resp =
      ⟨401, Body.err "Invalid token", []⟩ ∧
     (exec [(authMw : Mw RLState)] wreqBadTok emptyRL wresp).handlerRun = false) :=
  ⟨(claim_C5_auth_rejections wreqPlain emptyRL wresp).1 (by decide),
   (claim_C5_auth_rejections wreqBasic emptyRL wresp).2.1 "Basic abc" (by decide) (by decide),
   (claim_C5_auth_rejections wreqBadTok emptyRL wresp).2.2 "Bearer bogus"
     (by decide) (by decide) (by decide)⟩

/-- C7: when a schema exists for the request key, every declared field is
evaluated — each field's errors all reach the collected list — and the
Validator returns a 400 carrying the complete list when it is non-empty,
and delegates when no field produced an error. -/
theorem claim_C7_accumulates_all_errors {σ : Type} (req : Request) (st : σ)
    (handler : Response) (schema : Schema)
    (hs : schemas.lookup (routeKey req) = some schema) :
    (∀ fr ∈ schema.body, ∀ e ∈ validateField fr.1 (bodyGet req fr.1) fr.2,
      e ∈ validateRequest req schema) ∧
    (validateRequest req schema ≠ [] →
      (exec [validationMw] req st handler).resp =
        ⟨400, Body.errDetails "Validation failed" (validateRequest req schema), []⟩ ∧
      (exec [validationMw] req st handler).handlerRun = false) ∧
    (validateRequest req schema = [] →
      (exec [validationMw] req st handler).resp = handler ∧
      (exec [validationMw] req st handler).handlerRun = true) := by
  refine ⟨fun fr hfr e he => ?_, fun hne => ?_, fun heq => ?_⟩
  · unfold validateRequest
    exact List.mem_flatten.2 ⟨validateField fr.1 (bodyGet req fr.1) fr.2,
      List.mem_map_of_mem _ hfr, he⟩
  · have hlen : 0 < (validateRequest req schema).length := List.length_pos.2 hne
    have hm : validationMw req st = (⟨st, req, Outcome.shortCircuit
        ⟨400, Body.errDetails "Validation failed" (validateRequest req schema), []⟩⟩ :
          MwResult σ) := by
      unfold validationMw
      rw [hs]
      simp [hlen]
    rw [exec_cons_shortCircuit validationMw [] req st st req _ handler hm]
    exact ⟨rfl, rfl⟩
  · have hm : validationMw req st = (⟨st, req, Outcome.delegate⟩ : MwResult σ) := by
      unfold validationMw
      rw [hs]
      simp [heq]
    rw [exec_cons_delegate validationMw [] req st st req handler hm]
    exact ⟨rfl, rfl⟩

/-- C7 witness: the invalid POST:/users body produces both field errors
(bad email and short name) in one 400 details list, and each field's error
is in the collected list. -/
theorem claim_C7_accumulates_all_errors_witness :
    ("email must be a valid email" ∈
      validateRequest wreqPost ⟨[
        ("email", ⟨true, some FieldType.email, none, none⟩),
        ("name", ⟨true, some FieldType.str, some 2, none⟩),
        ("age", ⟨false, some FieldType.num, none, some 18⟩)]⟩) ∧
    (exec [(validationMw : Mw RLState)] wreqPost emptyRL wresp).resp =
      ⟨400, Body.errDetails "Validation failed"
        ["email must be a valid email", "name must be at least 2 characters"], []⟩ ∧
    (exec [(validationMw : Mw RLState)] wreqPost emptyRL wresp).handlerRun = false := by
  refine ⟨?_, ?_⟩
  · exact (claim_C7_accumulates_all_errors wreqPost emptyRL wresp _ (by decide)).1
      ("email", ⟨true, some FieldType.email, none, none⟩) (by decide) _ (by decide)
  · have h := (claim_C7_accumulates_all_errors wreqPost emptyRL wresp ⟨[
        ("email", ⟨true, some FieldType.email, none, none⟩),
        ("name", ⟨true, some FieldType.str, some 2, none⟩),
        ("age", ⟨false, some FieldType.num, none, some 18⟩)]⟩ (by decide)).2.1 (by decide)
    have hv : validateRequest wreqPost ⟨[
        ("email", ⟨true, some FieldType.email, none, none⟩),
        ("name", ⟨true, some FieldType.str, some 2, none⟩),
        ("age", ⟨false, some FieldType.num, none, some 18⟩)]⟩ =
        ["email must be a valid email", "name must be at least 2 characters"] := by decide
    rw [hv] at h
    exact h

/-- Rejection shape of the rate limiter on a full pruned window: 429 with
Retry-After, no terminal handler, stored window left at the pruned list. -/
theorem rateLimit_reject_of_full (now : Nat) (req : Request) (st : RLState)
    (handler : Response)
    (hlim : maxRequests ≤ (prune now (st (getClientId req))).length) :
    (exec [rateLimitMw now] req st handler).resp =
      ⟨429, Body.err "Rate limit exceeded", [("Retry-After", "60")]⟩ ∧
    (exec [rateLimitMw now] req st handler).handlerRun = false ∧
    (exec [rateLimitMw now] req st handler).st (getClientId req) =
      prune now (st (getClientId req)) := by
  have hm : rateLimitMw now req st = (⟨fun k =>
      if k = getClientId req then prune now (st (getClientId req)) else st k, req,
      Outcome.shortCircuit ⟨429, Body.err "Rate limit exceeded",
        [("Retry-After", "60")]⟩⟩ : MwResult RLState) := by
    simp only [rateLimitMw]
    rw [if_pos hlim]
  rw [exec_cons_shortCircuit (rateLimitMw now) [] req st _ req _ handler hm]
  exact ⟨rfl, rfl, by simp⟩

/-- A run of requests all lying inside one window and fitting under the
`maxRequests` bound is admitted in full: every request time is appended to
the client's stored window, in order. -/
theorem issue_records (req : Request) : ∀ (ts : List Nat) (st : RLState) (pre : List Nat),
    st (getClientId req) = pre →
    (pre ++ ts).length ≤ maxRequests →
    (∀ a ∈ pre ++ ts, ∀ b ∈ pre ++ ts, b - a < windowMs) →
    issue req ts st (getClientId req) = pre ++ ts := by
  intro ts
  induction ts with
  | nil =>
    intro st pre hst _ _
    simpa using hst
  | cons t ts ih =>
    intro st pre hst hlen hwin
    have hkeep : prune t pre = pre := by
      apply List.filter_eq_self.2
      intro a ha
      simp only [decide_eq_true_eq]
      exact hwin a (by simp [ha]) t (by simp)
    have hplen : ¬ (maxRequests ≤ (prune t (st (getClientId req))).length) := by
      rw [hst, hkeep]
      simp only [List.length_append, List.length_cons] at hlen
      omega
    have hstep : (rateLimitMw t req st).st (getClientId req) = pre ++ [t] := by
      simp only [rateLimitMw]
      rw [if_neg hplen]
      simp [hst, hkeep]
    have happ : pre ++ t :: ts = (pre ++ [t]) ++ ts := by simp
    simp only [issue]
    rw [happ]
    refine ih _ (pre ++ [t]) hstep ?_ ?_
    · rw [← happ]
      exact hlen
    · rw [← happ]
      exact hwin

/-- C3: a client whose pruned window already holds `maxRequests`
timestamps is rejected: the rate limiter answers 429 with a `Retry-After`
header of `"60"` — the window duration in seconds — the terminal handler
does not run, and no timestamp is appended to the client's stored window.
A request issued after the window has elapsed (every stored timestamp at
least `windowMs` old) is admitted and the continuation result is
returned. And end to end: a client starting from an empty window that
issues `maxRequests` requests, all within `windowMs` of one another and of
a final extra request, has every one of them admitted and recorded, and
the (`maxRequests`+1)-th request is rejected as above. -/
theorem claim_C3_sliding_window (now now2 : Nat) (req : Request) (st : RLState)
    (handler : Response) :
    (maxRequests ≤ (prune now (st (getClientId req))).length →
      (exec [rateLimitMw now] req st handler).resp =
        ⟨429, Body.err "Rate limit exceeded", [("Retry-After", "60")]⟩ ∧
      toString (windowMs / 1000) = "60" ∧
      (exec [rateLimitMw now] req st handler).handlerRun = false ∧
      (exec [rateLimitMw now] req st handler).st (getClientId req) =
        prune now (st (getClientId req))) ∧
    ((∀ t ∈ st (getClientId req), windowMs ≤ now2 - t) →
      (exec [rateLimitMw now2] req st handler).resp = handler ∧
      (exec [rateLimitMw now2] req st handler).handlerRun = true) ∧
    (∀ (ts : List Nat) (now3 : Nat), st (getClientId req) = [] →
      (∀ a ∈ ts ++ [now3], ∀ b ∈ ts ++ [now3], b - a < windowMs) →
      ts.length = maxRequests →
      issue req ts st (getClientId req) = ts ∧
      (exec [rateLimitMw now3] req (issue req ts st) handler).resp =
        ⟨429, Body.err "Rate limit exceeded", [("Retry-After", "60")]⟩ ∧
      (exec [rateLimitMw now3] req (issue req ts st) handler).handlerRun = false) := by
  refine ⟨fun hlim => ?_, fun hold => ?_, fun ts now3 hempty hwin hlen => ?_⟩
  · obtain ⟨h1, h2, h3⟩ := rateLimit_reject_of_full now req st handler hlim
    exact ⟨h1, by decide, h2, h3⟩
  ·
    have hv : prune now2 (st (getClientId req)) = [] := by
      unfold prune
      rw [List.filter_eq_nil_iff]
      intro a ha
      simp only [decide_eq_true_eq]
      exact Nat.not_lt.2 (hold a ha)
    have hout : (rateLimitMw now2 req st).out = Outcome.delegate := by
      simp only [rateLimitMw]
      rw [hv, if_neg (by decide)]
    rcases hm2 : rateLimitMw now2 req st with ⟨st2, req2, out⟩
    rw [hm2] at hout
    simp only at hout
    subst hout
    rw [exec_cons_delegate (rateLimitMw now2) [] req st st2 req2 handler hm2]
    exact ⟨rfl, rfl⟩
  · have hwints : ∀ a ∈ ([] : List Nat) ++ ts, ∀ b ∈ ([] : List Nat) ++ ts,
        b - a < windowMs := by
      intro a ha b hb
      simp only [List.nil_append] at ha hb
      exact hwin a (List.mem_append_left _ ha) b (List.mem_append_left _ hb)
    have hrec : issue req ts st (getClientId req) = ts := by
      have h := issue_records req ts st [] hempty (by simpa using Nat.le_of_eq hlen) hwints
      simpa using h
    have hpr : prune now3 (issue req ts st (getClientId req)) = ts := by
      rw [hrec]
      apply List.filter_eq_self.2
      intro a ha
      simp only [decide_eq_true_eq]
      exact hwin a (List.mem_append_left _ ha) now3 (by simp)
    have hlim : maxRequests ≤ (prune now3 (issue req ts st (getClientId req))).length := by
      rw [hpr, hlen]
    obtain ⟨h1, h2, h3⟩ := rateLimit_reject_of_full now3 req (issue req ts st) handler hlim
    exact ⟨hrec, h1, h2⟩

/-- C3 witness: with ten timestamps 0–9 recorded for the fallback client,
an 11th request at time 100 (inside the window) is rejected with 429 and
Retry-After 60 and no timestamp is recorded; a request at time 70000
(window elapsed for every stored timestamp) is admitted; and the
end-to-end run from the empty state records all ten requests and rejects
the eleventh. -/
theorem claim_C3_sliding_window_witness :
    ((exec [rateLimitMw 100] wreqPlain stTen wresp).resp =
        ⟨429, Body.err "Rate limit exceeded", [("Retry-After", "60")]⟩ ∧
      toString (windowMs / 1000) = "60" ∧
      (exec [rateLimitMw 100] wreqPlain stTen wresp).handlerRun = false ∧
      (exec [rateLimitMw 100] wreqPlain stTen wresp).st (getClientId wreqPlain) =
        prune 100 (stTen (getClientId wreqPlain))) ∧
    ((exec [rateLimitMw 70000] wreqPlain stTen wresp).resp = wresp ∧
      (exec [rateLimitMw 70000] wreqPlain stTen wresp).handlerRun = true) ∧
    (issue wreqPlain [0, 1, 2, 3, 4, 5, 6, 7, 8, 9] emptyRL (getClientId wreqPlain) =
        [0, 1, 2, 3, 4, 5, 6, 7, 8, 9] ∧
      (exec [rateLimitMw 100] wreqPlain
          (issue wreqPlain [0, 1, 2, 3, 4, 5, 6, 7, 8, 9] emptyRL) wresp).resp =
        ⟨429, Body.err "Rate limit exceeded", [("Retry-After", "60")]⟩ ∧
      (exec [rateLimitMw 100] wreqPlain
          (issue wreqPlain [0, 1, 2, 3, 4, 5, 6, 7, 8, 9] emptyRL) wresp).handlerRun = false) :=
  ⟨(claim_C3_sliding_window 100 70000 wreqPlain stTen wresp).1 (by decide),
   (claim_C3_sliding_window 100 70000 wreqPlain stTen wresp).2.1 (by decide),
   (claim_C3_sliding_window 100 70000 wreqPlain emptyRL wresp).2.2
     [0, 1, 2, 3, 4, 5, 6, 7, 8, 9] 100 (by decide) (by decide) (by decide)⟩

/-- C9: after an execute call on any per-client window holding at most
`maxRequests` timestamps, every timestamp stored for the requesting client
is within `windowMs` of the `now` observed at that call's prune, and the
stored window length still does not exceed `maxRequests`. -/
theorem claim_C9_window_invariant (now : Nat) (req : Request) (st : RLState)
    (hpre : (st (getClientId req)).length ≤ maxRequests) :
    (∀ t ∈ (rateLimitMw now req st).st (getClientId req), now - t < windowMs) ∧
    ((rateLimitMw now req st).st (getClientId req)).length ≤ maxRequests := by
  by_cases hlim : maxRequests ≤ (prune now (st (getClientId req))).length
  · have hst : (rateLimitMw now req st).st (getClientId req) =
        prune now (st (getClientId req)) := by
      simp only [rateLimitMw]
      rw [if_pos hlim]
      simp
    rw [hst]
    refine ⟨fun t ht => ?_, ?_⟩
    · simpa using List.of_mem_filter ht
    · exact le_trans (List.length_filter_le _ _) hpre
  · have hst : (rateLimitMw now req st).st (getClientId req) =
        prune now (st (getClientId req)) ++ [now] := by
      simp only [rateLimitMw]
      rw [if_neg hlim]
      simp
    rw [hst]
    refine ⟨fun t ht => ?_, ?_⟩
    · rcases List.mem_append.1 ht with h | h
      · simpa using List.of_mem_filter h
      · have ht0 : t = now := by simpa using h
        subst ht0
        simp [windowMs]
    · rw [List.length_append]
      have hlt : (prune now (st (getClientId req))).length < maxRequests :=
        Nat.lt_of_not_le hlim
      simpa using hlt

/-- C9 witness: the full window of ten timestamps pruned at time 100 stays
within the bound and within the window. -/
theorem claim_C9_window_invariant_witness :
    (∀ t ∈ (rateLimitMw 100 wreqPlain stTen).st (getClientId wreqPlain),
      100 - t < windowMs) ∧
    ((rateLimitMw 100 wreqPlain stTen).st (getClientId wreqPlain)).length ≤ maxRequests :=
  claim_C9_window_invariant 100 wreqPlain stTen (by decide)

/-- C1: evaluation of the server at the unauthorized-demo request (DELETE
/users/123 with the user-role bearer token). The claim — and the demo's
own comments — expect 403 with the terminal handler never invoked; the
code answers 200 and runs the terminal handler, because the permission
registry is keyed by the route pattern `DELETE:/users/:id` while the
lookup uses the literal request path (`DELETE:/users/123`), so the
Authorizer fails open. The last three conjuncts exhibit the mechanism. -/
theorem claim_C1_admin_route_eval :
    (handleRequest 0 wreqDelete emptyRL).resp.status = 200 ∧
    (handleRequest 0 wreqDelete emptyRL).handlerRun = true ∧
    verifyToken "valid-token" = some ⟨"user123", "user@example.com", "user"⟩ ∧
    permissions.lookup (routeKey wreqDelete) = none ∧
    permissions.lookup "DELETE:/users/:id" = some ["admin"] := by decide

/-- C2 counterexample: MiddlewarePipeline.execute has no reentrancy guard.
A middleware that invokes its continuation a second time makes the run
complete normally — no InvalidChainState failure exists anywhere in the
executor — and the terminal handler is invoked twice (the third component
of the result counts terminal-handler invocations). -/
theorem claim_C2_counterexample_double_call :
    runPipeline [MWProg.callTwice] wresp = some (wresp, 1, 2) ∧
    ¬ (∀ (mws : List MWProg) (handler r : Response) (i c : Nat),
        runPipeline mws handler = some (r, i, c) → c ≤ 1) := by
  refine ⟨by decide, fun hall => ?_⟩
  have h2 : (2 : Nat) ≤ 1 := hall [MWProg.callTwice] wresp wresp 1 2 (by decide)
  exact absurd h2 (by decide)

/-- Helper for C2: under middlewares that invoke their continuation at
most once, any completed run invokes the terminal handler at most once,
whatever index the continuation chain starts from. -/
theorem runNext_count_le_one (mws : List MWProg) (handler : Response)
    (hno : MWProg.callTwice ∉ mws) :
    ∀ fuel idx r i c, runNext mws handler fuel idx = some (r, i, c) → c ≤ 1 := by
  intro fuel
  induction fuel with
  | zero =>
    intro idx r i c h
    simp [runNext] at h
  | succ fuel ih =>
    intro idx r i c h
    rw [runNext] at h
    by_cases hidx : idx < mws.length
    · rw [dif_pos hidx] at h
      rcases hg : mws.get ⟨idx, hidx⟩ with r0 | _ | _ <;> rw [hg] at h
      · have hc : c = 0 := by
          simpa using congrArg (fun o => (o.map (fun p => p.2.2)).getD 7) h.symm
        simp [hc]
      · exact ih (idx + 1) r i c h
      · have hmem : MWProg.callTwice ∈ mws := hg ▸ List.get_mem mws idx hidx
        exact absurd hmem hno
    · rw [dif_neg hidx] at h
      have hc : c = 1 := by
        simpa using congrArg (fun o => (o.map (fun p => p.2.2)).getD 7) h.symm
      simp [hc]

/-- C2 amended: the executor contains no InvalidChainState guard — a
continuation invoked a second time simply resumes from the shared index
and can re-run the terminal handler (see the counterexample); the
at-most-once property holds exactly when every middleware invokes its
continuation at most once, in which case any completed run invokes the
terminal handler at most once. -/
theorem claim_C2_amended_single_call (mws : List MWProg) (handler : Response)
    (hno : MWProg.callTwice ∉ mws) (r : Response) (i c : Nat)
    (hrun : runPipeline mws handler = some (r, i, c)) : c ≤ 1 :=
  runNext_count_le_one mws handler hno _ 0 r i c hrun

/-- C2 amended witness: a pipeline of one responding middleware completes
with the terminal handler not invoked, within the at-most-once bound. -/
theorem claim_C2_amended_single_call_witness :
    MWProg.callTwice ∉ [MWProg.respond wresp] ∧
    runPipeline [MWProg.respond wresp] wresp = some (wresp, 1, 0) ∧ (0 : Nat) ≤ 1 :=
  ⟨by decide, by decide,
    claim_C2_amended_single_call [MWProg.respond wresp] wresp (by decide) wresp 1 0 (by decide)⟩

end Pipeline
